import Mathlib

/-!
Verification of `concat-js.py`, a one-shot utility that recursively walks a
directory tree, selects the files whose names end with `.js`, and writes to an
output file one block per selected file: a header comment line with the file
name followed by the file content (or an inline error comment when the file
cannot be read).

The script is embedded shallowly.  A run of `os.walk` is modelled as the list
of `(root, files)` pairs it yields, where each listed file carries its name
(`os.walk` yields base names) together with the outcome of reading it: either
its text content or the message of the raised exception.  The directory tree
itself is modelled by the inductive `Entry`, and `walk` computes the top-down
`os.walk` sequence of such a tree; `os.walk` puts non-directory entries in the
`files` component and directories in the `dirs` component, which is exactly
what `filesOf` and `walkList` reproduce.
-/

namespace ConcatJs

instance : DecidableEq (Except String String) := fun a b =>
  match a, b with
  | Except.ok x, Except.ok y =>
      if h : x = y then isTrue (by rw [h]) else isFalse (by intro hc; cases hc; exact h rfl)
  | Except.ok _, Except.error _ => isFalse (by intro hc; cases hc)
  | Except.error _, Except.ok _ => isFalse (by intro hc; cases hc)
  | Except.error x, Except.error y =>
      if h : x = y then isTrue (by rw [h]) else isFalse (by intro hc; cases hc; exact h rfl)

/-- One entry of the `files` list yielded by `os.walk`: its base name and the
outcome of `open(...).read()` on it (`Except.error` carries the stringified
exception message). -/
structure FSFile where
  name : String
  lettura : Except String String
  deriving DecidableEq, Repr

/-- One `(root, dirs, files)` triple yielded by `os.walk`, keeping the parts
the script uses: the root path and the files list. -/
structure WalkDir where
  root : String
  files : List FSFile
  deriving DecidableEq, Repr

/-- The full sequence yielded by `os.walk(cartella)`. -/
abbrev FileSystem := List WalkDir

/-- Python's `str.endswith(suffix)`: the character sequence of `suffix` is a
suffix of the character sequence of `s`. -/
def endswith (s suffix : String) : Bool := suffix.data.isSuffixOf s.data

/-- Lines 15-21 of `concat-js.py`: write the header `//<filename>`, then
either the content followed by a newline, or the inline error comment. -/
def scriviFile (out : String) (filename : String) (lettura : Except String String) : String :=
  let out1 := out ++ ("//" ++ filename ++ "\n")
  match lettura with
  | Except.ok contenuto => out1 ++ (contenuto ++ "\n")
  | Except.error e => out1 ++ ("// Impossibile leggere " ++ filename ++ ": " ++ e ++ "\n")

/-- `processa_js_files` (lines 5-21): iterate over the walk, and for every
listed file whose name ends with `.js` append its block to the output.  The
returned string is the final content of `file_output`. -/
def processa_js_files (fs : FileSystem) : String :=
  fs.foldl
    (fun out d =>
      d.files.foldl
        (fun out f =>
          if endswith f.name ".js" then scriviFile out f.name f.lettura else out)
        out)
    ""

/-- Result of one run of `main`: the lines printed to stdout, the exit code,
and the content written to the output file (`none` when the output file is
never opened). -/
structure RunResult where
  stdout : List String
  exitCode : Nat
  written : Option String
  deriving DecidableEq, Repr

/-- `main` (lines 23-36).  `sys.argv` is `prog :: args`, so the
`len(sys.argv) != 3` check is the check that `args` has exactly two
elements; `isDir` models `os.path.isdir`. -/
def main (prog : String) (args : List String) (isDir : String → Bool)
    (fs : FileSystem) : RunResult :=
  match args with
  | [cartella_di_input, file_di_output] =>
    if isDir cartella_di_input then
      RunResult.mk
        ["Elaborazione completata. Output salvato in " ++ file_di_output]
        0
        (some (processa_js_files fs))
    else
      RunResult.mk
        ["Errore: " ++ cartella_di_input ++ " non è una cartella valida."]
        1
        none
  | _ =>
    RunResult.mk
      ["Uso: " ++ prog ++ " <cartella_di_input> <file_di_output>"]
      1
      none

/-! ## Run model with the output-file open made explicit

Line 10 (`with open(file_output, "w", encoding="utf-8") as out:`) is outside
every handler: when the output path cannot be opened for writing the raised
`OSError` propagates out of `processa_js_files` and out of `main`, and the
interpreter terminates with a traceback and exit status 1.  The model above
assumes that open succeeds; here its outcome is an explicit parameter. -/

/-- `processa_js_files` with the outcome of line 10's
`open(file_output, "w")` explicit: an `Except.error` is the raised `OSError`
(unwritable path), which no handler in the function catches; when the open
succeeds the body is exactly the fold of `processa_js_files`. -/
def processa_js_files_conApertura (apertura : Except String Unit)
    (fs : FileSystem) : Except String String :=
  match apertura with
  | Except.error e => Except.error e
  | Except.ok _ => Except.ok (processa_js_files fs)

/-- Outcome of a full run of `main`: a normal termination carrying a
`RunResult`, or termination by an uncaught exception (the interpreter prints
a traceback and exits with status 1, with nothing written). -/
inductive RunOutcome where
  | normal (r : RunResult)
  | uncaught (e : String)
  deriving DecidableEq, Repr

/-- Exit status of a run outcome: an uncaught exception exits with 1. -/
def RunOutcome.exitCode : RunOutcome → Nat
  | RunOutcome.normal r => r.exitCode
  | RunOutcome.uncaught _ => 1

/-- Content written to the output file by a run outcome, when any. -/
def RunOutcome.written : RunOutcome → Option String
  | RunOutcome.normal r => r.written
  | RunOutcome.uncaught _ => none

/-- `main` (lines 23-36) with the outcome of opening the output file
explicit: identical to `main` except that line 10's open may raise, and the
exception then escapes `main` uncaught. -/
def mainConApertura (prog : String) (args : List String) (isDir : String → Bool)
    (apertura : Except String Unit) (fs : FileSystem) : RunOutcome :=
  match args with
  | [cartella_di_input, file_di_output] =>
    if isDir cartella_di_input then
      match processa_js_files_conApertura apertura fs with
      | Except.ok contenutoOutput =>
          RunOutcome.normal (RunResult.mk
            ["Elaborazione completata. Output salvato in " ++ file_di_output]
            0
            (some contenutoOutput))
      | Except.error e => RunOutcome.uncaught e
    else
      RunOutcome.normal (RunResult.mk
        ["Errore: " ++ cartella_di_input ++ " non è una cartella valida."]
        1
        none)
  | _ =>
    RunOutcome.normal (RunResult.mk
      ["Uso: " ++ prog ++ " <cartella_di_input> <file_di_output>"]
      1
      none)

/-! ## Directory-tree model of the filesystem and of `os.walk` -/

/-- A filesystem entry: a non-directory entry (regular file, symlink, fifo,
...) with the outcome of reading it, or a directory with its children. -/
inductive Entry where
  | file (name : String) (lettura : Except String String)
  | dir (name : String) (children : List Entry)

/-- The `files` component `os.walk` yields for a directory with the given
children: the non-directory entries, in order; directories are never listed
here. -/
def filesOf : List Entry → List FSFile
  | [] => []
  | Entry.file n r :: rest => FSFile.mk n r :: filesOf rest
  | Entry.dir _ _ :: rest => filesOf rest

/-- `os.path.join` for the paths built during the walk. -/
def joinPath (a b : String) : String := a ++ "/" ++ b

mutual

/-- Walk triples contributed by one child entry of directory `parent`:
none for a non-directory entry, the subtree walk for a directory. -/
def walkEntry (parent : String) : Entry → List WalkDir
  | Entry.file _ _ => []
  | Entry.dir n children =>
      WalkDir.mk (joinPath parent n) (filesOf children) ::
        walkList (joinPath parent n) children

/-- Walk triples contributed by a list of children, in order (top-down
`os.walk` recurses into subdirectories in the order they are listed). -/
def walkList (parent : String) : List Entry → List WalkDir
  | [] => []
  | e :: rest => walkEntry parent e ++ walkList parent rest

end

/-- `os.walk(top)` on a tree with the given children of `top`: the triple for
`top` first, then the subtree walks in order. -/
def walk (top : String) (entries : List Entry) : FileSystem :=
  WalkDir.mk top (filesOf entries) :: walkList top entries

/-! ## Specification-side vocabulary -/

/-- The suffix filter of line 13: the name ends with `.js`. -/
def isCandidate (f : FSFile) : Bool := endswith f.name ".js"

/-- The block the spec ascribes to one candidate file: header line
`//<filename>`, then the content followed by one newline, or the inline
error comment. -/
def blockFor (f : FSFile) : String :=
  match f.lettura with
  | Except.ok c => "//" ++ f.name ++ "\n" ++ (c ++ "\n")
  | Except.error e =>
      "//" ++ f.name ++ "\n" ++ ("// Impossibile leggere " ++ f.name ++ ": " ++ e ++ "\n")

/-- All files listed by the walk, in traversal order. -/
def allFiles (fs : FileSystem) : List FSFile := (fs.map WalkDir.files).flatten

/-- The candidate files of the walk, in traversal order. -/
def candidates (fs : FileSystem) : List FSFile := (allFiles fs).filter isCandidate

/-- Concatenation of the blocks of the candidates among a file list. -/
def outputFor (l : List FSFile) : String :=
  String.join ((l.filter isCandidate).map blockFor)

/-! ## Basic lemmas about string concatenation of blocks -/

theorem join_cons (a : String) (l : List String) :
    String.join (a :: l) = a ++ String.join l := by
  apply String.ext
  simp [String.data_join, String.data_append]

theorem join_append (l1 l2 : List String) :
    String.join (l1 ++ l2) = String.join l1 ++ String.join l2 := by
  apply String.ext
  simp [String.data_join, String.data_append]

theorem outputFor_nil : outputFor [] = "" := by
  apply String.ext
  simp [outputFor, String.data_join]

theorem outputFor_cons (f : FSFile) (l : List FSFile) :
    outputFor (f :: l) =
      (if isCandidate f then blockFor f else "") ++ outputFor l := by
  by_cases h : isCandidate f
  · rw [outputFor, List.filter_cons_of_pos h, List.map_cons, join_cons, if_pos h]
    rfl
  · rw [outputFor, List.filter_cons_of_neg h, if_neg h, String.empty_append]
    rfl

theorem outputFor_append (l1 l2 : List FSFile) :
    outputFor (l1 ++ l2) = outputFor l1 ++ outputFor l2 := by
  rw [outputFor, List.filter_append, List.map_append, join_append]
  rfl

/-- The body of the inner loop appends the candidate's block. -/
theorem scriviFile_eq (out : String) (f : FSFile) :
    scriviFile out f.name f.lettura = out ++ blockFor f := by
  cases h : f.lettura <;>
    simp [scriviFile, blockFor, h, String.append_assoc]

/-- The inner loop of `processa_js_files` appends the blocks of the
candidates among `l` to the accumulated output. -/
theorem foldl_files (l : List FSFile) (out : String) :
    (l.foldl
        (fun out f =>
          if endswith f.name ".js" then scriviFile out f.name f.lettura else out)
        out) = out ++ outputFor l := by
  induction l generalizing out with
  | nil => simp [outputFor_nil]
  | cons f rest ih =>
      rw [List.foldl_cons, outputFor_cons, ih]
      by_cases h : isCandidate f
      · rw [if_pos h, if_pos (by simpa [isCandidate] using h), scriviFile_eq,
          String.append_assoc]
      · rw [if_neg h, if_neg (by simpa [isCandidate] using h), String.empty_append]

theorem allFiles_nil : allFiles [] = [] := rfl

theorem allFiles_cons (d : WalkDir) (fs : FileSystem) :
    allFiles (d :: fs) = d.files ++ allFiles fs := by
  simp [allFiles]

/-- Representation theorem: the output written by `processa_js_files` is the
concatenation of the blocks of the candidate files, in traversal order. -/
theorem processa_eq_outputFor (fs : FileSystem) :
    processa_js_files fs = outputFor (allFiles fs) := by
  suffices h : ∀ (fs : FileSystem) (out : String),
      (fs.foldl
          (fun out d =>
            d.files.foldl
              (fun out f =>
                if endswith f.name ".js" then scriviFile out f.name f.lettura else out)
              out)
          out) = out ++ outputFor (allFiles fs) by
    have := h fs ""
    rw [processa_js_files, this, String.empty_append]
  intro fs
  induction fs with
  | nil => intro out; simp [allFiles_nil, outputFor_nil]
  | cons d rest ih =>
      intro out
      rw [List.foldl_cons, foldl_files, ih, allFiles_cons, outputFor_append,
        String.append_assoc]

/-- Every candidate file of the walk contributes its block somewhere in the
output. -/
theorem mem_block_decomp (fs : FileSystem) (f : FSFile)
    (hmem : f ∈ allFiles fs) (hc : isCandidate f = true) :
    ∃ pre post, processa_js_files fs = pre ++ blockFor f ++ post := by
  obtain ⟨l1, l2, hsplit⟩ := List.append_of_mem hmem
  refine ⟨outputFor l1, outputFor l2, ?_⟩
  rw [processa_eq_outputFor, hsplit, outputFor_append, outputFor_cons, if_pos hc,
    ← String.append_assoc]

/-! ## Claims -/

/-- C1: the output of `processa_js_files` is exactly the concatenation, in
traversal order, of one block per candidate file (so a walk with N candidate
files yields exactly N blocks), and dropping every non-matching file from the
walk leaves the output unchanged: non-matching files are never referenced. -/
theorem output_blocks_candidates (fs : FileSystem) :
    processa_js_files fs = String.join ((candidates fs).map blockFor) ∧
    processa_js_files
        (fs.map fun d => WalkDir.mk d.root (d.files.filter isCandidate)) =
      processa_js_files fs := by
  constructor
  · rw [processa_eq_outputFor]; rfl
  · rw [processa_eq_outputFor, processa_eq_outputFor]
    induction fs with
    | nil => rfl
    | cons d rest ih =>
        rw [List.map_cons, allFiles_cons, allFiles_cons, outputFor_append,
          outputFor_append, ih]
        have hfilter :
            outputFor (WalkDir.mk d.root (d.files.filter isCandidate)).files =
              outputFor d.files := by
          simp [outputFor, List.filter_filter]
        rw [hfilter]

/-- C2: the block of a readable candidate file is the literal header line
`//<filename>` (no space after `//`), immediately followed by the file
content and one appended newline, placed between the blocks of the preceding
and following candidates. -/
theorem block_header_literal (fs : FileSystem) (l1 l2 : List FSFile)
    (f : FSFile) (c : String) (h1 : allFiles fs = l1 ++ f :: l2)
    (h2 : isCandidate f = true) (h3 : f.lettura = Except.ok c) :
    processa_js_files fs =
      outputFor l1 ++ ("//" ++ f.name ++ "\n" ++ (c ++ "\n")) ++ outputFor l2 := by
  rw [processa_eq_outputFor, h1, outputFor_append, outputFor_cons, if_pos h2,
    ← String.append_assoc]
  simp [blockFor, h3]

theorem block_header_literal_witness :
    processa_js_files [WalkDir.mk "r" [FSFile.mk "a.js" (Except.ok "let x=1;")]] =
      outputFor [] ++ ("//" ++ "a.js" ++ "\n" ++ ("let x=1;" ++ "\n")) ++ outputFor [] :=
  block_header_literal [WalkDir.mk "r" [FSFile.mk "a.js" (Except.ok "let x=1;")]]
    [] [] (FSFile.mk "a.js" (Except.ok "let x=1;")) "let x=1;" rfl (by decide) rfl

/-- C3: when a candidate file cannot be read, its block is the header line
followed by the comment `// Impossibile leggere <filename>: <error>` in place
of the content, and the blocks of all the following candidates are still
written after it: the run is not aborted. -/
theorem read_error_block_and_continue (fs : FileSystem) (l1 l2 : List FSFile)
    (f : FSFile) (e : String) (h1 : allFiles fs = l1 ++ f :: l2)
    (h2 : isCandidate f = true) (h3 : f.lettura = Except.error e) :
    processa_js_files fs =
      outputFor l1 ++
        ("//" ++ f.name ++ "\n" ++
          ("// Impossibile leggere " ++ f.name ++ ": " ++ e ++ "\n")) ++
      outputFor l2 := by
  rw [processa_eq_outputFor, h1, outputFor_append, outputFor_cons, if_pos h2,
    ← String.append_assoc]
  simp [blockFor, h3]

theorem read_error_block_and_continue_witness :
    processa_js_files
        [WalkDir.mk "r"
          [FSFile.mk "bad.js" (Except.error "Permission denied"),
           FSFile.mk "ok.js" (Except.ok "let y=2;")]] =
      outputFor [] ++
        ("//" ++ "bad.js" ++ "\n" ++
          ("// Impossibile leggere " ++ "bad.js" ++ ": " ++ "Permission denied" ++ "\n")) ++
      outputFor [FSFile.mk "ok.js" (Except.ok "let y=2;")] :=
  read_error_block_and_continue
    [WalkDir.mk "r"
      [FSFile.mk "bad.js" (Except.error "Permission denied"),
       FSFile.mk "ok.js" (Except.ok "let y=2;")]]
    [] [FSFile.mk "ok.js" (Except.ok "let y=2;")]
    (FSFile.mk "bad.js" (Except.error "Permission denied")) "Permission denied"
    rfl (by decide) rfl

/-- C4: the content portion of the block of a readable candidate file is
exactly the file's raw content followed by exactly one appended newline. -/
theorem readable_block_content (fs : FileSystem) (f : FSFile) (c : String)
    (hmem : f ∈ allFiles fs) (h2 : isCandidate f = true)
    (h3 : f.lettura = Except.ok c) :
    ∃ pre post,
      processa_js_files fs =
        pre ++ (("//" ++ f.name ++ "\n") ++ (c ++ "\n")) ++ post := by
  obtain ⟨pre, post, h⟩ := mem_block_decomp fs f hmem h2
  refine ⟨pre, post, ?_⟩
  rw [h]
  simp [blockFor, h3]

theorem readable_block_content_witness :
    ∃ pre post,
      processa_js_files [WalkDir.mk "r" [FSFile.mk "a.js" (Except.ok "body")]] =
        pre ++ (("//" ++ "a.js" ++ "\n") ++ ("body" ++ "\n")) ++ post :=
  readable_block_content [WalkDir.mk "r" [FSFile.mk "a.js" (Except.ok "body")]]
    (FSFile.mk "a.js" (Except.ok "body")) "body" (by decide) (by decide) rfl

/-- C5: when the input path is not a directory, `main` prints the error
message, exits with status 1, and never opens or writes the output file. -/
theorem invalid_dir_no_output (prog inp outp : String) (isDir : String → Bool)
    (fs : FileSystem) (h : isDir inp = false) :
    main prog [inp, outp] isDir fs =
      RunResult.mk ["Errore: " ++ inp ++ " non è una cartella valida."] 1 none := by
  simp [main, h]

theorem invalid_dir_no_output_witness :
    main "concat-js.py" ["missing", "out.txt"] (fun _ => false) [] =
      RunResult.mk ["Errore: " ++ "missing" ++ " non è una cartella valida."] 1 none :=
  invalid_dir_no_output "concat-js.py" "missing" "out.txt" (fun _ => false) [] rfl

/-- Helper: in the model where the output file opens successfully, `main`
exits nonzero exactly when a top-level validation fails, and with both
validations passing it exits 0 and writes the output of
`processa_js_files`, whatever read errors the walk contains. -/
theorem main_exit_iff_validation (prog : String) (args : List String)
    (isDir : String → Bool) (fs : FileSystem) :
    ((main prog args isDir fs).exitCode ≠ 0 ↔
      args.length ≠ 2 ∨ ∃ inp outp, args = [inp, outp] ∧ isDir inp = false) ∧
    (∀ inp outp, args = [inp, outp] → isDir inp = true →
      (main prog args isDir fs).exitCode = 0 ∧
      (main prog args isDir fs).written = some (processa_js_files fs)) := by
  rcases args with _ | ⟨a, _ | ⟨b, _ | ⟨c, rest⟩⟩⟩
  · exact ⟨by simp [main], by intro inp outp h; cases h⟩
  · exact ⟨by simp [main], by intro inp outp h; cases h⟩
  · constructor
    · by_cases h : isDir a
      · simp [main, h]
      · constructor
        · intro _
          exact Or.inr ⟨a, b, rfl, eq_false_of_ne_true h⟩
        · intro _
          simp [main, h]
    · intro inp outp heq hdir
      cases heq
      simp [main, hdir]
  · exact ⟨by simp [main], by intro inp outp h; cases h⟩

/-- With a successfully opened output file, the explicit-open run is the
normal termination of `main`. -/
theorem mainConApertura_ok (prog : String) (args : List String)
    (isDir : String → Bool) (fs : FileSystem) :
    mainConApertura prog args isDir (Except.ok ()) fs =
      RunOutcome.normal (main prog args isDir fs) := by
  rcases args with _ | ⟨a, _ | ⟨b, _ | ⟨c, rest⟩⟩⟩
  · rfl
  · rfl
  · by_cases h : isDir a <;>
      simp [mainConApertura, main, processa_js_files_conApertura, h]
  · rfl

/-- C6 counterexample: with exactly two arguments and a valid input
directory (both top-level validations pass), an unwritable output path makes
line 10's `open(file_output, "w")` raise; the exception is caught nowhere,
the run terminates with an uncaught exception and exit status 1, and no
inline annotation is produced: a fatal error that is not one of the two
validation errors. -/
theorem output_open_failure_fatal :
    (["proj", "out.txt"] : List String).length = 2 ∧
    (fun _ : String => true) "proj" = true ∧
    mainConApertura "concat-js.py" ["proj", "out.txt"] (fun _ => true)
        (Except.error "Permission denied") [] =
      RunOutcome.uncaught "Permission denied" ∧
    (mainConApertura "concat-js.py" ["proj", "out.txt"] (fun _ => true)
        (Except.error "Permission denied") []).exitCode = 1 ∧
    (mainConApertura "concat-js.py" ["proj", "out.txt"] (fun _ => true)
        (Except.error "Permission denied") []).written = none :=
  ⟨rfl, rfl, rfl, rfl, rfl⟩

/-- C6 (amended): provided the output file opens for writing, a run exits
with a nonzero status exactly when one of the two top-level validations
fails (wrong argument count, or input path not a directory); whenever both
validations pass the run exits with status 0 and writes the output of
`processa_js_files`, whatever read errors the walk contains: file-level read
errors never terminate the process.  Without that proviso an unwritable
output path is a third fatal error. -/
theorem only_validation_fatal_when_output_writable (prog : String)
    (args : List String) (isDir : String → Bool)
    (apertura : Except String Unit) (fs : FileSystem)
    (hap : apertura = Except.ok ()) :
    (((mainConApertura prog args isDir apertura fs).exitCode ≠ 0) ↔
      args.length ≠ 2 ∨ ∃ inp outp, args = [inp, outp] ∧ isDir inp = false) ∧
    (∀ inp outp, args = [inp, outp] → isDir inp = true →
      (mainConApertura prog args isDir apertura fs).exitCode = 0 ∧
      (mainConApertura prog args isDir apertura fs).written =
        some (processa_js_files fs)) := by
  subst hap
  rw [mainConApertura_ok]
  have h := main_exit_iff_validation prog args isDir fs
  constructor
  · simpa [RunOutcome.exitCode] using h.1
  · intro inp outp he hd
    simpa [RunOutcome.exitCode, RunOutcome.written] using h.2 inp outp he hd

theorem only_validation_fatal_when_output_writable_witness :
    (mainConApertura "concat-js.py" ["proj", "out.txt"] (fun _ => true)
        (Except.ok ())
        [WalkDir.mk "proj" [FSFile.mk "bad.js" (Except.error "boom")]]).exitCode = 0 ∧
    (mainConApertura "concat-js.py" ["proj", "out.txt"] (fun _ => true)
        (Except.ok ())
        [WalkDir.mk "proj" [FSFile.mk "bad.js" (Except.error "boom")]]).written =
      some (processa_js_files
        [WalkDir.mk "proj" [FSFile.mk "bad.js" (Except.error "boom")]]) :=
  (only_validation_fatal_when_output_writable "concat-js.py" ["proj", "out.txt"]
      (fun _ => true) (Except.ok ())
      [WalkDir.mk "proj" [FSFile.mk "bad.js" (Except.error "boom")]] rfl).2
    "proj" "out.txt" rfl rfl

/-- C7: with an argument count other than two, `main` prints the usage line
to stdout, exits with status 1, and writes nothing; the result does not
depend on the filesystem or on `isDir` at all, so no traversal and no file
access happens. -/
theorem wrong_arg_count_usage (prog : String) (args : List String)
    (isDir isDir2 : String → Bool) (fs fs2 : FileSystem)
    (h : args.length ≠ 2) :
    main prog args isDir fs =
      RunResult.mk ["Uso: " ++ prog ++ " <cartella_di_input> <file_di_output>"] 1 none ∧
    main prog args isDir fs = main prog args isDir2 fs2 := by
  rcases args with _ | ⟨a, _ | ⟨b, _ | ⟨c, rest⟩⟩⟩
  · exact ⟨rfl, rfl⟩
  · exact ⟨rfl, rfl⟩
  · exact absurd rfl h
  · exact ⟨rfl, rfl⟩

theorem wrong_arg_count_usage_witness :
    main "concat-js.py" ["onlyone"] (fun _ => true)
        [WalkDir.mk "r" [FSFile.mk "a.js" (Except.ok "x")]] =
      RunResult.mk
        ["Uso: " ++ "concat-js.py" ++ " <cartella_di_input> <file_di_output>"] 1 none ∧
    main "concat-js.py" ["onlyone"] (fun _ => true)
        [WalkDir.mk "r" [FSFile.mk "a.js" (Except.ok "x")]] =
      main "concat-js.py" ["onlyone"] (fun _ => false) [] :=
  wrong_arg_count_usage "concat-js.py" ["onlyone"] (fun _ => true) (fun _ => false)
    [WalkDir.mk "r" [FSFile.mk "a.js" (Except.ok "x")]] [] (by decide)

/-- C8: the run is deterministic: two runs on equal walks produce equal
output file contents, and two full runs of `main` on equal inputs are
equal. -/
theorem deterministic_output (prog : String) (args : List String)
    (isDir : String → Bool) (fs1 fs2 : FileSystem) (h : fs1 = fs2) :
    processa_js_files fs1 = processa_js_files fs2 ∧
    main prog args isDir fs1 = main prog args isDir fs2 := by
  rw [h]
  exact ⟨rfl, rfl⟩

theorem deterministic_output_witness :
    processa_js_files [WalkDir.mk "r" [FSFile.mk "a.js" (Except.ok "x")]] =
      processa_js_files [WalkDir.mk "r" [FSFile.mk "a.js" (Except.ok "x")]] ∧
    main "p" ["r", "o"] (fun _ => true)
        [WalkDir.mk "r" [FSFile.mk "a.js" (Except.ok "x")]] =
      main "p" ["r", "o"] (fun _ => true)
        [WalkDir.mk "r" [FSFile.mk "a.js" (Except.ok "x")]] :=
  deterministic_output "p" ["r", "o"] (fun _ => true)
    [WalkDir.mk "r" [FSFile.mk "a.js" (Except.ok "x")]]
    [WalkDir.mk "r" [FSFile.mk "a.js" (Except.ok "x")]] rfl

/-- C9 counterexample: a directory entry whose name ends with `.js` is a
filesystem entry under the root matching the suffix, yet the output is empty:
`os.walk` lists directories in `dirs`, never in `files`, so the directory
receives no block. -/
theorem dir_matching_suffix_no_block :
    endswith "a.js" ".js" = true ∧
    processa_js_files (walk "root" [Entry.dir "a.js" []]) = "" := by
  constructor
  · decide
  · rfl

/-- C9 (amended): every non-directory entry listed by the walk whose name
ends with `.js` receives a block in the output; directory entries are never
listed as files, so a directory matching the suffix receives none. -/
theorem nondir_matching_gets_block (top : String) (tree : List Entry)
    (f : FSFile) (hmem : f ∈ allFiles (walk top tree))
    (hc : isCandidate f = true) :
    ∃ pre post, processa_js_files (walk top tree) = pre ++ blockFor f ++ post :=
  mem_block_decomp (walk top tree) f hmem hc

theorem nondir_matching_gets_block_witness :
    ∃ pre post,
      processa_js_files (walk "root" [Entry.file "a.js" (Except.ok "x")]) =
        pre ++ blockFor (FSFile.mk "a.js" (Except.ok "x")) ++ post :=
  nondir_matching_gets_block "root" [Entry.file "a.js" (Except.ok "x")]
    (FSFile.mk "a.js" (Except.ok "x")) (by decide) (by decide)

/-- C10: blocks never mention the directory: relabelling every root path in
the walk leaves the output unchanged, and two same-named candidate files
placed in two different subdirectories produce two identical blocks (hence
identical header lines). -/
theorem header_basename_only (fs : FileSystem) (g : String → String)
    (p d1 d2 n : String) (r : Except String String)
    (h : endswith n ".js" = true) :
    processa_js_files (fs.map fun d => WalkDir.mk (g d.root) d.files) =
      processa_js_files fs ∧
    processa_js_files
        (walk p [Entry.dir d1 [Entry.file n r], Entry.dir d2 [Entry.file n r]]) =
      blockFor (FSFile.mk n r) ++ blockFor (FSFile.mk n r) := by
  constructor
  · rw [processa_eq_outputFor, processa_eq_outputFor]
    congr 1
    simp [allFiles, List.map_map]
    rfl
  · rw [processa_eq_outputFor]
    simp [walk, walkList, walkEntry, filesOf, allFiles, outputFor_cons,
      outputFor_nil, isCandidate, h, String.append_empty]

theorem header_basename_only_witness :
    processa_js_files
        ([WalkDir.mk "r" [FSFile.mk "a.js" (Except.ok "x")]].map
          fun d => WalkDir.mk (id d.root) d.files) =
      processa_js_files [WalkDir.mk "r" [FSFile.mk "a.js" (Except.ok "x")]] ∧
    processa_js_files
        (walk "proj" [Entry.dir "s1" [Entry.file "same.js" (Except.ok "z")],
          Entry.dir "s2" [Entry.file "same.js" (Except.ok "z")]]) =
      blockFor (FSFile.mk "same.js" (Except.ok "z")) ++
        blockFor (FSFile.mk "same.js" (Except.ok "z")) :=
  header_basename_only [WalkDir.mk "r" [FSFile.mk "a.js" (Except.ok "x")]] id
    "proj" "s1" "s2" "same.js" (Except.ok "z") (by decide)

end ConcatJs
